import Mathlib

set_option maxRecDepth 100000

/-!
Shallow embedding of the Dockerfile-to-compose directive extraction engine
of src/main.py (class DockerfileParser).  The Python code works by running
specific regular expressions over the file content; each regex is embedded
here as a deterministic leftmost-greedy matcher over List Char that follows
the concrete pattern structure of the source (literal keyword, whitespace
classes, capture groups, optional clauses).  Stateful accumulation on the
parser object is modelled by threading a ParserState value through parse.
-/

/-- Whitespace test mirroring the regex whitespace class of the source
language (space, tab, newline, carriage return, vertical tab, form feed). -/
def pySpace (c : Char) : Bool :=
  c = ' ' || c = '\t' || c = '\n' || c = '\r' || c = Char.ofNat 11 || c = Char.ofNat 12

/-- Complement of pySpace, mirroring the regex non-whitespace class. -/
def pyNonSpace (c : Char) : Bool := !(pySpace c)

/-- Word character test mirroring the regex word class (letters, digits, underscore). -/
def wordChar (c : Char) : Bool := c.isAlphanum || c = '_'

/-- Strip characters satisfying p from both ends, as the str.strip family does. -/
def pyStrip (p : Char → Bool) (cs : List Char) : List Char :=
  ((cs.dropWhile p).reverse.dropWhile p).reverse

/-- Whitespace strip, the zero-argument str.strip of the source. -/
def stripWS (cs : List Char) : List Char := pyStrip pySpace cs

/-- Membership in the two-character quote set used by the ENV value strip call. -/
def quoteSet (c : Char) : Bool := c = '"' || c = '\''

/-- Membership in the strip set used on VOLUME pieces: space and both quotes. -/
def volStripSet (c : Char) : Bool := c = ' ' || c = '"' || c = '\''

/-- Split on a separator character, keeping empty pieces, as str.split with
an explicit separator does. -/
def splitOnChar (sep : Char) : List Char → List (List Char)
  | [] => [[]]
  | c :: cs =>
    if c = sep then [] :: splitOnChar sep cs
    else
      match splitOnChar sep cs with
      | [] => [[c]]
      | l :: ls => (c :: l) :: ls

/-- Fueled worker for pySplitWs. -/
def pySplitWsAux : Nat → List Char → List (List Char)
  | 0, _ => []
  | _ + 1, [] => []
  | fuel + 1, c :: cs =>
    if pySpace c then pySplitWsAux fuel cs
    else
      let t := List.span pyNonSpace (c :: cs)
      t.1 :: pySplitWsAux fuel t.2

/-- Whitespace split discarding empty pieces, the zero-argument str.split. -/
def pySplitWs (cs : List Char) : List (List Char) := pySplitWsAux cs.length cs

/-- Consume one given character, case sensitively. -/
def lit1 (c : Char) : List Char → Option (List Char)
  | x :: rest => if x = c then some rest else none
  | [] => none

/-- Consume a literal word case-insensitively, returning the remainder. -/
def litCI : List Char → List Char → Option (List Char)
  | [], cs => some cs
  | _ :: _, [] => none
  | p :: ps, c :: cs => if c.toLower = p.toLower then litCI ps cs else none

/-- Consume a literal word case-insensitively, also returning the actual
characters consumed (needed because a capture group reports the input text,
not the pattern text). -/
def litCIKeep : List Char → List Char → Option (List Char × List Char)
  | [], cs => some ([], cs)
  | _ :: _, [] => none
  | p :: ps, c :: cs =>
    if c.toLower = p.toLower then
      match litCIKeep ps cs with
      | some (acc, rest) => some (c :: acc, rest)
      | none => none
    else none

/-- Consume a literal word case-sensitively (the inner healthcheck option
searches are compiled without the ignore-case flag). -/
def litCS : List Char → List Char → Option (List Char)
  | [], cs => some cs
  | _ :: _, [] => none
  | p :: ps, c :: cs => if c = p then litCS ps cs else none

/-- Consume a pattern whose positions are either a concrete character
(case-insensitive) or a wildcard standing for the regex dot, which matches
any character except newline. -/
def litDot : List (Option Char) → List Char → Option (List Char)
  | [], cs => some cs
  | _ :: _, [] => none
  | some p :: ps, c :: cs => if c.toLower = p.toLower then litDot ps cs else none
  | none :: ps, c :: cs => if c = '\n' then none else litDot ps cs

/-- Greedy run of at least one whitespace character. -/
def sp1 (cs : List Char) : Option (List Char) :=
  let t := List.span pySpace cs
  if t.1.isEmpty then none else some t.2

/-- Greedy run of zero or more whitespace characters. -/
def sp0 (cs : List Char) : List Char := cs.dropWhile pySpace

/-- Greedy run of at least one character satisfying p, returned with the rest. -/
def tok1 (p : Char → Bool) (cs : List Char) : Option (List Char × List Char) :=
  let t := List.span p cs
  if t.1.isEmpty then none else some t

/-- Optional clause: keep the position unchanged when the clause fails. -/
def optStep (f : List Char → Option (List Char)) (cs : List Char) : List Char :=
  match f cs with
  | some rest => rest
  | none => cs

/-- Leftmost search trying every start position, mirroring re.search. -/
def firstMatch (m : List Char → Option α) : List Char → Option α
  | [] => m []
  | c :: cs =>
    match m (c :: cs) with
    | some a => some a
    | none => firstMatch m cs

/-- Fueled worker for allMatches.  Every matcher used with it consumes at
least one character on success, so fuel equal to the input length suffices;
the patterns cannot match the empty suffix, which is therefore skipped. -/
def allMatchesAux (m : List Char → Option (α × List Char)) : Nat → List Char → List α
  | 0, _ => []
  | _ + 1, [] => []
  | fuel + 1, c :: cs =>
    match m (c :: cs) with
    | some (a, rest) => a :: allMatchesAux m fuel rest
    | none => allMatchesAux m fuel cs

/-- All non-overlapping leftmost matches in order, mirroring re.finditer. -/
def allMatches (m : List Char → Option (α × List Char)) (cs : List Char) : List α :=
  allMatchesAux m cs.length cs

/-- Matcher for the FROM pattern: the keyword, whitespace, a non-space image
reference (group), and an optional stage-alias clause, case-insensitively. -/
def matchFromAt (cs : List Char) : Option (List Char × List Char) := do
  let r1 ← litCI (("from").data) cs
  let r2 ← sp1 r1
  let (img, r3) ← tok1 pyNonSpace r2
  let r4 := optStep (fun s => do
      let a ← sp1 s
      let b ← litCI (("as").data) a
      let c2 ← sp1 b
      let (_, d) ← tok1 wordChar c2
      pure d) r3
  pure (img, r4)

/-- Matcher for the EXPOSE pattern: the keyword, whitespace, a digit run
(group), and an optional slash-protocol clause that is consumed but whose
protocol is NOT part of the capture group, case-insensitively. -/
def matchExposeAt (cs : List Char) : Option (List Char × List Char) := do
  let r1 ← litCI (("expose").data) cs
  let r2 ← sp1 r1
  let (port, r3) ← tok1 Char.isDigit r2
  let r4 := optStep (fun s => do
      let a ← lit1 '/' s
      match litCI (("tcp").data) a with
      | some b => pure b
      | none => litCI (("udp").data) a) r3
  pure (port, r4)

/-- Character allowed inside the VOLUME capture group: anything except a
double quote or a closing bracket (newlines included, as in the regex). -/
def volChar (c : Char) : Bool := !(c = '"' || c = ']')

/-- Matcher for the VOLUME pattern: keyword, whitespace, optional opening
bracket and quote, the group run, optional closing quote and bracket. -/
def matchVolumeAt (cs : List Char) : Option (List Char × List Char) := do
  let r1 ← litCI (("volume").data) cs
  let r2 ← sp1 r1
  let r3 := optStep (lit1 '[') r2
  let r4 := optStep (lit1 '"') r3
  let (grp, r5) ← tok1 volChar r4
  let r6 := optStep (lit1 '"') r5
  let r7 := optStep (lit1 ']') r6
  pure (grp, r7)

/-- Character allowed in the ENV key group: neither whitespace nor equals. -/
def envKeyChar (c : Char) : Bool := !(pySpace c || c = '=')

/-- Matcher for the ENV pattern: keyword, whitespace, key group, then either
a whitespace separator or an equals sign with optional surrounding
whitespace, then a non-space value group.  The whitespace branch of the
alternation is preferred exactly when at least one whitespace character
follows the key and a value token exists after it. -/
def matchEnvAt (cs : List Char) : Option ((List Char × List Char) × List Char) := do
  let r1 ← litCI (("env").data) cs
  let r2 ← sp1 r1
  let (key, r3) ← tok1 envKeyChar r2
  let t := List.span pySpace r3
  if t.1.isEmpty then
    let r4 ← lit1 '=' r3
    let r5 := sp0 r4
    let (v, r6) ← tok1 pyNonSpace r5
    pure ((key, v), r6)
  else
    let (v, r6) ← tok1 pyNonSpace t.2
    pure ((key, v), r6)

/-- Matcher for the WORKDIR pattern: keyword, whitespace, non-space group. -/
def matchWorkdirAt (cs : List Char) : Option (List Char) := do
  let r1 ← litCI (("workdir").data) cs
  let r2 ← sp1 r1
  let (w, _) ← tok1 pyNonSpace r2
  pure w

/-- One healthcheck option flag: two dashes, a non-space run, and then an
optional clause of whitespace, equals sign, whitespace and a value token. -/
def hcOptClauseStep (cs : List Char) : Option (List Char) := do
  let r1 ← lit1 '-' cs
  let r2 ← lit1 '-' r1
  let (_, r3) ← tok1 pyNonSpace r2
  pure (optStep (fun s => do
      let t := List.span pySpace s
      let a ← lit1 '=' t.2
      let b := sp0 a
      let (_, c2) ← tok1 pyNonSpace b
      pure c2) r3)

/-- One further option flag preceded by mandatory whitespace (the starred
clause of the healthcheck options group). -/
def hcMoreOptStep (cs : List Char) : Option (List Char) := do
  let a ← sp1 cs
  hcOptClauseStep a

/-- Greedy repetition of further option flags; each successful step consumes
at least one character, so fuel equal to the input length suffices. -/
def hcOptsLoop : Nat → List Char → List Char
  | 0, cs => cs
  | fuel + 1, cs =>
    match hcMoreOptStep cs with
    | some rest => hcOptsLoop fuel rest
    | none => cs

/-- Any character except newline: the regex dot without the dotall flag. -/
def notNl (c : Char) : Bool := !(c = '\n')

/-- Matcher for the HEALTHCHECK pattern: keyword, whitespace, at least one
option flag followed by more (group one is the whole option region), then
whitespace, the CMD keyword, whitespace, and the rest of the line as group
two.  A HEALTHCHECK with no option flags does not match at all. -/
def matchHealthcheckAt (cs : List Char) : Option ((List Char × List Char) × List Char) := do
  let r1 ← litCI (("healthcheck").data) cs
  let r2 ← sp1 r1
  let r3 ← hcOptClauseStep r2
  let r4 := hcOptsLoop r3.length r3
  let optsStr := r2.take (r2.length - r4.length)
  let r5 ← sp1 r4
  let r6 ← litCI (("cmd").data) r5
  let r7 ← sp1 r6
  let (cmdTxt, r8) ← tok1 notNl r7
  pure ((optsStr, cmdTxt), r8)

/-- Matcher for one inner option search such as the interval lookup: the
literal option text (case-sensitively, since these searches are compiled
without the ignore-case flag) followed by a non-space value group. -/
def optValAt (pat : List Char) (cs : List Char) : Option (List Char) := do
  let r1 ← litCS pat cs
  let (v, _) ← tok1 pyNonSpace r1
  pure v

/-- Digit-only body of the integer conversion. -/
def pyIntDigits (cs : List Char) : Option Int :=
  if cs.isEmpty then none
  else if cs.all Char.isDigit then
    some (Int.ofNat (cs.foldl (fun n c => n * 10 + (c.toNat - 48)) 0))
  else none

/-- Integer conversion mirroring the int constructor on a non-space token:
an optional sign followed by a digit run; anything else raises, which is
modelled as none.  Underscore digit grouping is not modelled. -/
def pyInt (cs : List Char) : Option Int :=
  match cs with
  | '-' :: rest => (pyIntDigits rest).map (fun n => -n)
  | '+' :: rest => pyIntDigits rest
  | _ => pyIntDigits cs

/-- Path literal of the hardcoded ENTRYPOINT special case. -/
def serverPath : List Char := ("/usr/local/bin/server").data

/-- Matcher for the hardcoded ENTRYPOINT special-case pattern: the keyword,
whitespace, an opening bracket, optional whitespace, a double quote, the
server path literal (case-insensitively, group one keeps the actual input
characters), a double quote, optional whitespace and a closing bracket.
Written with explicit matches to ease equational reasoning. -/
def matchEpSpecialAt (cs : List Char) : Option (List Char) :=
  match litCI (("entrypoint").data) cs with
  | none => none
  | some r1 =>
    match sp1 r1 with
    | none => none
    | some r2 =>
      match lit1 '[' r2 with
      | none => none
      | some r3 =>
        match lit1 '"' (sp0 r3) with
        | none => none
        | some r5 =>
          match litCIKeep serverPath r5 with
          | none => none
          | some (actual, r6) =>
            match lit1 '"' r6 with
            | none => none
            | some r7 =>
              match lit1 ']' (sp0 r7) with
              | none => none
              | some _ => some actual

/-- First pattern piece of the hardcoded CMD special case. -/
def cmdSpecPiece1 : List (Option Char) := (("\"--config\",").data).map some

/-- Second pattern piece of the hardcoded CMD special case; the regex dot
before yaml is a wildcard position. -/
def cmdSpecPiece2 : List (Option Char) :=
  (("\"/etc/app/config").data).map some ++ [none] ++ (("yaml\",").data).map some

/-- Third pattern piece of the hardcoded CMD special case. -/
def cmdSpecPiece3 : List (Option Char) := (("\"--verbose\"").data).map some

/-- Matcher for the hardcoded CMD special-case pattern: the keyword,
whitespace, an opening bracket, and the three quoted argument literals
separated by commas and optional whitespace, then a closing bracket.  Only
presence matters, so the result carries no data. -/
def matchCmdSpecialAt (cs : List Char) : Option Unit :=
  match litCI (("cmd").data) cs with
  | none => none
  | some r1 =>
    match sp1 r1 with
    | none => none
    | some r2 =>
      match lit1 '[' r2 with
      | none => none
      | some r3 =>
        match litDot cmdSpecPiece1 (sp0 r3) with
        | none => none
        | some r5 =>
          match litDot cmdSpecPiece2 (sp0 r5) with
          | none => none
          | some r7 =>
            match litDot cmdSpecPiece3 (sp0 r7) with
            | none => none
            | some r9 =>
              match lit1 ']' (sp0 r9) with
              | none => none
              | some _ => some ()

/-- Split a character list at the first closing bracket, if any. -/
def bracketSplit : List Char → Option (List Char × List Char)
  | [] => none
  | c :: cs =>
    if c = ']' then some ([], cs)
    else
      match bracketSplit cs with
      | some (a, b) => some (c :: a, b)
      | none => none

/-- Matcher for the general ENTRYPOINT pattern: the keyword, whitespace,
then either a lazily bracketed group (from the opening bracket up to and
including the first closing bracket, with at least one character between,
newlines allowed by the dotall flag) or a bare non-space run.  Only the
capture group is needed by the caller. -/
def matchEntrypointAt (cs : List Char) : Option (List Char) := do
  let r1 ← litCI (("entrypoint").data) cs
  let r2 ← sp1 r1
  match r2 with
  | '[' :: c0 :: rest0 =>
    match bracketSplit rest0 with
    | some (mid, _) => pure ('[' :: c0 :: (mid ++ ([']'] : List Char)))
    | none => (tok1 pyNonSpace r2).map (fun p => p.1)
  | _ => (tok1 pyNonSpace r2).map (fun p => p.1)

/-- Matcher for one token of the manual fallback tokenizer: a double-quoted
run, a single-quoted run, or a bare non-space run; an unterminated quoted
run falls back to the bare branch starting at the quote character itself. -/
def matchTokenAt (cs : List Char) : Option (List Char × List Char) :=
  match cs with
  | [] => none
  | '"' :: rest =>
    (match tok1 (fun c => !(c = '"')) rest with
     | some (t, '"' :: r) => some (t, r)
     | _ => tok1 pyNonSpace cs)
  | '\'' :: rest =>
    (match tok1 (fun c => !(c = '\'')) rest with
     | some (t, '\'' :: r) => some (t, r)
     | _ => tok1 pyNonSpace cs)
  | c :: _ => if pySpace c then none else tok1 pyNonSpace cs

/-- Fueled worker for the dynamic-evaluation model: after the opening
bracket, repeatedly read single-quoted string elements separated by commas,
allowing surrounding whitespace and a trailing comma, until the closing
bracket ends the whole text.  Adjacent string literal concatenation,
escapes and non-string elements are not modelled; such inputs evaluate to
none, matching a raised exception in the relevant cases. -/
def evalElemsAux : Nat → List Char → List String → Option (List String)
  | 0, _, _ => none
  | fuel + 1, cs, acc =>
    match sp0 cs with
    | ']' :: rest => if (sp0 rest).isEmpty then some acc.reverse else none
    | '\'' :: rest =>
      (match List.span (fun c => !(c = '\'')) rest with
       | (tokcs, '\'' :: r2) =>
         (match sp0 r2 with
          | ',' :: r3 => evalElemsAux fuel r3 (String.mk tokcs :: acc)
          | ']' :: r3 =>
            if (sp0 r3).isEmpty then some (String.mk tokcs :: acc).reverse else none
          | _ => none)
       | _ => none)
    | _ => none

/-- Model of evaluating a bracketed text as a list of strings, the dynamic
evaluation used by the source after double quotes were replaced by single
quotes; returns none where the evaluation would raise. -/
def pyEvalStrList (cs : List Char) : Option (List String) :=
  match cs with
  | '[' :: rest => evalElemsAux (rest.length + 1) rest []
  | _ => none

/-- Replace every double quote by a single quote, as the source does before
attempting dynamic evaluation. -/
def pyReplQuote (cs : List Char) : List Char :=
  cs.map (fun c => if c = '"' then '\'' else c)

/-- Fueled worker for collapseWS. -/
def collapseWSAux : Nat → List Char → List Char
  | 0, _ => []
  | _ + 1, [] => []
  | fuel + 1, c :: cs =>
    if pySpace c then ' ' :: collapseWSAux fuel (cs.dropWhile pySpace)
    else c :: collapseWSAux fuel cs

/-- Collapse every whitespace run into one space, the substitution applied
before dynamic evaluation. -/
def collapseWS (cs : List Char) : List Char := collapseWSAux cs.length cs

/-- Piece of a whitespace run after its last newline. -/
def afterLastNl (sp : List Char) : List Char :=
  (sp.reverse.takeWhile (fun c => !(c = '\n'))).reverse

/-- Whether a whitespace run contains a newline. -/
def hasNl (sp : List Char) : Bool := sp.any (fun c => c = '\n')

/-- Fueled worker for normalizeContent: a backslash followed by a
whitespace run containing a newline is replaced, together with that run up
to its last newline, by a single space (the greedy substitution of the
source); scanning resumes after the replaced region. -/
def normalizeAux : Nat → List Char → List Char
  | 0, _ => []
  | _ + 1, [] => []
  | fuel + 1, c :: cs =>
    if c = '\\' then
      let t := List.span pySpace cs
      if hasNl t.1 then ' ' :: normalizeAux fuel (afterLastNl t.1 ++ t.2)
      else '\\' :: normalizeAux fuel cs
    else c :: normalizeAux fuel cs

/-- Line-continuation normalization applied to the content before all
extractors except the two hardcoded special cases, which see the raw text. -/
def normalizeContent (cs : List Char) : List Char := normalizeAux cs.length cs

/-- Healthcheck option accumulator, one optional slot per recognized key,
mirroring the healthcheck options dictionary of the parser. -/
structure HCOpts where
  interval : Option String := none
  timeout : Option String := none
  start_period : Option String := none
  retries : Option Int := none
deriving DecidableEq

/-- Variant value for entrypoint and command: shell form keeps one string,
exec form keeps a list of strings. -/
inductive StrOrList where
  | str (s : String)
  | list (l : List String)
deriving DecidableEq

/-- Accumulator state of the parser object, one field per instance
attribute set in the constructor of DockerfileParser. -/
structure ParserState where
  from_image : Option String := none
  exposed_ports : List String := []
  volumes : List String := []
  environment : List (String × String) := []
  working_dir : Option String := none
  entrypoint : Option StrOrList := none
  cmd : Option StrOrList := none
  healthcheck : Option String := none
  healthcheck_options : HCOpts := {}
deriving DecidableEq

/-- Freshly constructed parser state with every field unset or empty. -/
def initState : ParserState := {}

/-- Ordered mapping assignment with dictionary semantics: an existing key
keeps its position and has its value overwritten in place; a new key is
appended at the end. -/
def envInsert (env : List (String × String)) (k v : String) : List (String × String) :=
  if env.any (fun p => p.1 == k) then
    env.map (fun p => if p.1 == k then (k, v) else p)
  else env ++ [(k, v)]

/-- Decode one VOLUME capture group into path strings: comma-separated when
a comma occurs anywhere in it (keeping empty pieces), whitespace-separated
otherwise, each piece stripped of surrounding spaces and quotes. -/
def volumePieces (g : List Char) : List String :=
  if g.any (fun c => c = ',') then
    (splitOnChar ',' g).map (fun p => String.mk (pyStrip volStripSet p))
  else
    (pySplitWs g).map (fun p => String.mk (pyStrip volStripSet p))

/-- Healthcheck extraction step.  When the healthcheck pattern matches, the
recognized options found inside group one overwrite the corresponding
accumulator slots and the stripped group two becomes the healthcheck
command; a retries value that is not an integer raises, modelled as an
error result.  Without a match the previous values are kept. -/
def hcStep (content : List Char) (hc0 : Option String) (opts0 : HCOpts) :
    Except String (Option String × HCOpts) :=
  match firstMatch matchHealthcheckAt content with
  | none => Except.ok (hc0, opts0)
  | some ((optsStr, cmdTxt), _) =>
    let interval := match firstMatch (optValAt (("--interval=").data)) optsStr with
      | some v => some (String.mk v)
      | none => opts0.interval
    let timeout := match firstMatch (optValAt (("--timeout=").data)) optsStr with
      | some v => some (String.mk v)
      | none => opts0.timeout
    let startp := match firstMatch (optValAt (("--start-period=").data)) optsStr with
      | some v => some (String.mk v)
      | none => opts0.start_period
    match firstMatch (optValAt (("--retries=").data)) optsStr with
    | none =>
      Except.ok (some (String.mk (stripWS cmdTxt)),
        { interval := interval, timeout := timeout, start_period := startp,
          retries := opts0.retries })
    | some rv =>
      match pyInt rv with
      | some n =>
        Except.ok (some (String.mk (stripWS cmdTxt)),
          { interval := interval, timeout := timeout, start_period := startp,
            retries := some n })
      | none =>
        Except.error (String.mk ((("invalid literal for int: ").data) ++ rv))

/-- Whether a character list starts with the given character. -/
def startsWithCh (c : Char) : List Char → Bool
  | x :: _ => x = c
  | [] => false

/-- Whether a character list ends with the given character. -/
def endsWithCh (c : Char) (cs : List Char) : Bool := startsWithCh c cs.reverse

/-- Exec-form decoding shared by the entrypoint and command extractors:
replace double quotes by single quotes, collapse whitespace runs, then try
dynamic evaluation; on failure fall back to the manual tokenizer over the
collapsed text without its outer brackets.  The second component is the
inner text the fallback assigns to the local content variable, none when
evaluation succeeded. -/
def execFormDecode (v : List Char) : List String × Option (List Char) :=
  let collapsed := collapseWS (pyReplQuote v)
  match pyEvalStrList collapsed with
  | some l => (l, none)
  | none =>
    let inner := (collapsed.drop 1).dropLast
    ((allMatches matchTokenAt inner).map String.mk, some inner)

/-- Entrypoint extraction step, returning the new entrypoint value and the
content seen by the later command extraction.  The hardcoded special case
is checked first against the raw text; otherwise the general pattern is
searched in the normalized content and a bracketed value is decoded as exec
form, where a failed evaluation reassigns the local content variable to the
inner bracket text, which the command extraction then scans instead of the
file content. -/
def entrypointStep (original content : List Char) (ep0 : Option StrOrList) :
    Option StrOrList × List Char :=
  match firstMatch matchEpSpecialAt original with
  | some path => (some (StrOrList.list [String.mk path]), content)
  | none =>
    match firstMatch matchEntrypointAt content with
    | none => (ep0, content)
    | some g =>
      let v := stripWS g
      if startsWithCh '[' v && endsWithCh ']' v then
        match execFormDecode v with
        | (l, none) => (some (StrOrList.list l), content)
        | (l, some inner) => (some (StrOrList.list l), inner)
      else (some (StrOrList.str (String.mk v)), content)

/-- Line loop of the standalone command extraction: remember the payload of
the last stripped line beginning with the CMD keyword and a space, except
when the stripped previous raw line begins with the HEALTHCHECK keyword. -/
def cmdLoop : List (List Char) → List Char → Option (List Char) → Option (List Char)
  | [], _, acc => acc
  | l :: rest, prev, acc =>
    let s := stripWS l
    let acc' :=
      if List.isPrefixOf (("CMD ").data) (s.map Char.toUpper) then
        if List.isPrefixOf (("HEALTHCHECK").data) ((stripWS prev).map Char.toUpper) then acc
        else some (stripWS (s.drop 4))
      else acc
    cmdLoop rest l acc'

/-- Command extraction step.  The hardcoded special case is checked first
against the raw text and yields a fixed three-element list; otherwise the
line loop runs over the given content (which may be the clobbered inner
entrypoint text), and a non-empty final payload is decoded as exec form
when bracketed, shell form otherwise. -/
def cmdStep (original content : List Char) (cmd0 : Option StrOrList) : Option StrOrList :=
  match firstMatch matchCmdSpecialAt original with
  | some _ => some (StrOrList.list [("--config"), ("/etc/app/config.yaml"), ("--verbose")])
  | none =>
    match cmdLoop (splitOnChar '\n' content) [] none with
    | none => cmd0
    | some cl =>
      if cl.isEmpty then cmd0
      else if startsWithCh '[' cl && endsWithCh ']' cl then
        some (StrOrList.list (execFormDecode cl).1)
      else some (StrOrList.str (String.mk cl))

/-- Whole parse call over a given accumulator state and file text, the
parse method of DockerfileParser.  List fields are extended, the mapping is
assigned into, and optional scalars are overwritten only on a match; the
single raising point is the integer conversion of the retries option.  On
an exception the partial mutations of the Python object are not observable
through the API modelled here, so an error result carries no state. -/
def parse (st : ParserState) (text : String) : Except String ParserState :=
  let original := text.data
  let content := normalizeContent original
  let from_image := match (allMatches matchFromAt content).getLast? with
    | some img => some (String.mk img)
    | none => st.from_image
  let exposed_ports := st.exposed_ports ++ (allMatches matchExposeAt content).map String.mk
  let volumes := st.volumes ++ ((allMatches matchVolumeAt content).map volumePieces).flatten
  let environment := (allMatches matchEnvAt content).foldl
    (fun e kv => envInsert e (String.mk kv.1) (String.mk (pyStrip quoteSet kv.2)))
    st.environment
  let working_dir := match firstMatch matchWorkdirAt content with
    | some w => some (String.mk w)
    | none => st.working_dir
  match hcStep content st.healthcheck st.healthcheck_options with
  | Except.error e => Except.error e
  | Except.ok hc =>
    let ep := entrypointStep original content st.entrypoint
    let cmd := cmdStep original ep.2 st.cmd
    Except.ok
      { from_image := from_image, exposed_ports := exposed_ports, volumes := volumes,
        environment := environment, working_dir := working_dir, entrypoint := ep.1,
        cmd := cmd, healthcheck := hc.1, healthcheck_options := hc.2 }

/-- Value type of the assembled service record: scalar string, integer,
list of strings, or nested ordered mapping. -/
inductive Val where
  | s (v : String)
  | i (v : Int)
  | l (v : List String)
  | m (v : List (String × Val))

/-- Truthiness of an optional string, as the bare if tests of the assembler
see it: set and non-empty. -/
def optStrTruthy (o : Option String) : Bool :=
  match o with
  | some s => !s.isEmpty
  | none => false

/-- Truthiness of an optional entrypoint or command variant: set and with a
non-empty string or non-empty list inside. -/
def solTruthy (o : Option StrOrList) : Bool :=
  match o with
  | some (StrOrList.str s) => !s.isEmpty
  | some (StrOrList.list l) => !l.isEmpty
  | none => false

/-- Record value of an entrypoint or command variant. -/
def solVal : Option StrOrList → Val
  | some (StrOrList.str s) => Val.s s
  | some (StrOrList.list l) => Val.l l
  | none => Val.s ("")

/-- Healthcheck test command of the record: a bracketed stored command is
dynamically evaluated after quote replacement, falling back on failure to
the CMD marker followed by whitespace splitting; otherwise the shell marker
with the stored command. -/
def hcCmdVal (hc : String) : List String :=
  if startsWithCh '[' hc.data && endsWithCh ']' hc.data then
    match pyEvalStrList (pyReplQuote hc.data) with
    | some l => l
    | none => ("CMD") :: (pySplitWs hc.data).map String.mk
  else [("CMD-SHELL"), hc]

/-- Healthcheck block of the record: the test command, then interval,
timeout and retries with their defaults when unset, and the start period
only when explicitly set (no default is supplied for it). -/
def mkHealthcheckVal (hc : String) (opts : HCOpts) : List (String × Val) :=
  [(("test"), Val.l (hcCmdVal hc)),
   (("interval"), Val.s (opts.interval.getD ("30s"))),
   (("timeout"), Val.s (opts.timeout.getD ("10s"))),
   (("retries"), Val.i (opts.retries.getD 3))]
  ++ (match opts.start_period with
      | some sp => [(("start_period"), Val.s sp)]
      | none => [])

/-- Ordered service record assembled from a parser state, the service
configuration of generate compose: the build block always, then each
remaining key only when its source field is truthy, in the order the source
inserts them. -/
def serviceConfig (serviceName dockerfileName : String) (st : ParserState) :
    List (String × Val) :=
  ([[(("build"), Val.m [(("context"), Val.s (".")), (("dockerfile"), Val.s dockerfileName)])],
    (if optStrTruthy st.from_image
     then [(("image"), Val.s (serviceName ++ (":latest")))] else []),
    (if !st.exposed_ports.isEmpty
     then [(("ports"), Val.l (st.exposed_ports.map (fun p => p ++ (":") ++ p)))] else []),
    (if !st.volumes.isEmpty
     then [(("volumes"), Val.l (st.volumes.map (fun v => v ++ (":") ++ v)))] else []),
    (if !st.environment.isEmpty
     then [(("environment"), Val.m (st.environment.map (fun kv => (kv.1, Val.s kv.2))))] else []),
    (if optStrTruthy st.working_dir
     then [(("working_dir"), Val.s (st.working_dir.getD ("")))] else []),
    (if optStrTruthy st.healthcheck
     then [(("healthcheck"),
            Val.m (mkHealthcheckVal (st.healthcheck.getD ("")) st.healthcheck_options))] else []),
    (if solTruthy st.entrypoint then [(("entrypoint"), solVal st.entrypoint)] else []),
    (if solTruthy st.cmd then [(("command"), solVal st.cmd)] else [])]).flatten

/-- First value stored under a key in an ordered record. -/
def getVal (k : String) : List (String × Val) → Option Val
  | [] => none
  | (k', v) :: rest => if k' = k then some v else getVal k rest

/-- Boolean check that a pattern word matches an actual word case-insensitively. -/
def litCIOk : List Char → List Char → Bool
  | [], [] => true
  | p :: ps, a :: bs => (a.toLower = p.toLower) && litCIOk ps bs
  | _, _ => false

/-- Boolean check that a wildcard pattern matches an actual word. -/
def litDotOk : List (Option Char) → List Char → Bool
  | [], [] => true
  | some p :: ps, a :: bs => (a.toLower = p.toLower) && litDotOk ps bs
  | none :: ps, a :: bs => (!(a = '\n')) && litDotOk ps bs
  | _, _ => false

theorem litCI_append (pat act rest : List Char) (h : litCIOk pat act = true) :
    litCI pat (act ++ rest) = some rest := by
  induction pat generalizing act with
  | nil =>
    cases act with
    | nil => rfl
    | cons a bs => simp [litCIOk] at h
  | cons p ps ih =>
    cases act with
    | nil => simp [litCIOk] at h
    | cons a bs =>
      simp only [litCIOk, Bool.and_eq_true, decide_eq_true_eq] at h
      simp [litCI, h.1, ih bs h.2]

theorem litCIKeep_append (pat act rest : List Char) (h : litCIOk pat act = true) :
    litCIKeep pat (act ++ rest) = some (act, rest) := by
  induction pat generalizing act with
  | nil =>
    cases act with
    | nil => rfl
    | cons a bs => simp [litCIOk] at h
  | cons p ps ih =>
    cases act with
    | nil => simp [litCIOk] at h
    | cons a bs =>
      simp only [litCIOk, Bool.and_eq_true, decide_eq_true_eq] at h
      simp [litCIKeep, h.1, ih bs h.2]

theorem litDot_append (pat : List (Option Char)) (act rest : List Char)
    (h : litDotOk pat act = true) : litDot pat (act ++ rest) = some rest := by
  induction pat generalizing act with
  | nil =>
    cases act with
    | nil => rfl
    | cons a bs => simp [litDotOk] at h
  | cons p ps ih =>
    cases p with
    | some q =>
      cases act with
      | nil => simp [litDotOk] at h
      | cons a bs =>
        simp only [litDotOk, Bool.and_eq_true, decide_eq_true_eq] at h
        simp [litDot, h.1, ih bs h.2]
    | none =>
      cases act with
      | nil => simp [litDotOk] at h
      | cons a bs =>
        simp only [litDotOk, Bool.and_eq_true, Bool.not_eq_eq_eq_not, Bool.not_true,
          decide_eq_false_iff_not] at h
        simp [litDot, h.1, ih bs h.2]

theorem lit1_cons (c : Char) (r : List Char) : lit1 c (c :: r) = some r := by
  simp [lit1]

theorem takeWhile_concrete (p : Char → Bool) (a : List Char) (b : Char) (r : List Char)
    (h1 : a.all p = true) (h2 : p b = false) :
    (a ++ b :: r).takeWhile p = a := by
  induction a with
  | nil => simp [List.takeWhile_cons, h2]
  | cons x xs ih =>
    simp only [List.all_cons, Bool.and_eq_true] at h1
    simp [List.takeWhile_cons, h1.1, ih h1.2]

theorem dropWhile_concrete (p : Char → Bool) (a : List Char) (b : Char) (r : List Char)
    (h1 : a.all p = true) (h2 : p b = false) :
    (a ++ b :: r).dropWhile p = b :: r := by
  induction a with
  | nil => simp [List.dropWhile_cons, h2]
  | cons x xs ih =>
    simp only [List.all_cons, Bool.and_eq_true] at h1
    simp [List.dropWhile_cons, h1.1, ih h1.2]

theorem span_concrete (p : Char → Bool) (a : List Char) (b : Char) (r : List Char)
    (h1 : a.all p = true) (h2 : p b = false) :
    List.span p (a ++ b :: r) = (a, b :: r) := by
  rw [List.span_eq_take_drop, takeWhile_concrete p a b r h1 h2,
    dropWhile_concrete p a b r h1 h2]

theorem sp1_concrete (a : List Char) (b : Char) (r : List Char)
    (h1 : a.all pySpace = true) (h2 : pySpace b = false) (h3 : a.isEmpty = false) :
    sp1 (a ++ b :: r) = some (b :: r) := by
  unfold sp1
  rw [span_concrete pySpace a b r h1 h2]
  simp [h3]

theorem sp0_id (c : Char) (cs : List Char) (h : pySpace c = false) :
    sp0 (c :: cs) = c :: cs := by
  simp [sp0, List.dropWhile_cons, h]

theorem firstMatch_here {α : Type} (m : List Char → Option α) (l : List Char) (a : α)
    (h : m l = some a) (hne : l ≠ []) : firstMatch m l = some a := by
  cases l with
  | nil => exact absurd rfl hne
  | cons c cs => simp [firstMatch, h]

theorem firstMatch_unit_append (m : List Char → Option Unit) (pre l : List Char)
    (h : m l = some ()) (hne : l ≠ []) : firstMatch m (pre ++ l) = some () := by
  induction pre with
  | nil => simpa using firstMatch_here m l () h hne
  | cons c cs ih =>
    show firstMatch m (c :: (cs ++ l)) = some ()
    rw [firstMatch]
    cases hm : m (c :: (cs ++ l)) with
    | some u => cases u; rfl
    | none => exact ih

theorem sp0_concrete (a : List Char) (b : Char) (r : List Char)
    (h1 : a.all pySpace = true) (h2 : pySpace b = false) :
    sp0 (a ++ b :: r) = b :: r :=
  dropWhile_concrete pySpace a b r h1 h2

/-- Raw text of the hardcoded CMD special case. -/
def cmdLitStr : String := "CMD [\"--config\", \"/etc/app/config.yaml\", \"--verbose\"]"

/-- Raw text of the hardcoded ENTRYPOINT special case. -/
def epLitStr : String := "ENTRYPOINT [\"/usr/local/bin/server\"]"

theorem cmdSpecial_hit (rest : List Char) :
    matchCmdSpecialAt (cmdLitStr.data ++ rest) = some () := by
  have h1 : litCI (("cmd").data) (cmdLitStr.data ++ rest)
      = some ((" [\"--config\", \"/etc/app/config.yaml\", \"--verbose\"]").data ++ rest) :=
    litCI_append (("cmd").data) (("CMD").data)
      ((" [\"--config\", \"/etc/app/config.yaml\", \"--verbose\"]").data ++ rest) (by decide)
  have h2 : sp1 ((" [\"--config\", \"/etc/app/config.yaml\", \"--verbose\"]").data ++ rest)
      = some (("[\"--config\", \"/etc/app/config.yaml\", \"--verbose\"]").data ++ rest) :=
    sp1_concrete ([' ']) '['
      (("\"--config\", \"/etc/app/config.yaml\", \"--verbose\"]").data ++ rest)
      (by decide) (by decide) (by decide)
  have h3 : lit1 '[' (("[\"--config\", \"/etc/app/config.yaml\", \"--verbose\"]").data ++ rest)
      = some (("\"--config\", \"/etc/app/config.yaml\", \"--verbose\"]").data ++ rest) :=
    lit1_cons '[' (("\"--config\", \"/etc/app/config.yaml\", \"--verbose\"]").data ++ rest)
  have h4 : sp0 (("\"--config\", \"/etc/app/config.yaml\", \"--verbose\"]").data ++ rest)
      = ("\"--config\", \"/etc/app/config.yaml\", \"--verbose\"]").data ++ rest :=
    sp0_id '"' (("--config\", \"/etc/app/config.yaml\", \"--verbose\"]").data ++ rest) (by decide)
  have h5 : litDot cmdSpecPiece1
        (("\"--config\", \"/etc/app/config.yaml\", \"--verbose\"]").data ++ rest)
      = some ((" \"/etc/app/config.yaml\", \"--verbose\"]").data ++ rest) :=
    litDot_append cmdSpecPiece1 (("\"--config\",").data)
      ((" \"/etc/app/config.yaml\", \"--verbose\"]").data ++ rest) (by decide)
  have h6 : sp0 ((" \"/etc/app/config.yaml\", \"--verbose\"]").data ++ rest)
      = ("\"/etc/app/config.yaml\", \"--verbose\"]").data ++ rest :=
    sp0_concrete ([' ']) '"' (("/etc/app/config.yaml\", \"--verbose\"]").data ++ rest)
      (by decide) (by decide)
  have h7 : litDot cmdSpecPiece2 (("\"/etc/app/config.yaml\", \"--verbose\"]").data ++ rest)
      = some ((" \"--verbose\"]").data ++ rest) :=
    litDot_append cmdSpecPiece2 (("\"/etc/app/config.yaml\",").data)
      ((" \"--verbose\"]").data ++ rest) (by decide)
  have h8 : sp0 ((" \"--verbose\"]").data ++ rest)
      = ("\"--verbose\"]").data ++ rest :=
    sp0_concrete ([' ']) '"' (("--verbose\"]").data ++ rest) (by decide) (by decide)
  have h9 : litDot cmdSpecPiece3 (("\"--verbose\"]").data ++ rest)
      = some (("]").data ++ rest) :=
    litDot_append cmdSpecPiece3 (("\"--verbose\"").data) (("]").data ++ rest) (by decide)
  have h10 : sp0 (("]").data ++ rest) = ("]").data ++ rest :=
    sp0_id ']' rest (by decide)
  have h11 : lit1 ']' (("]").data ++ rest) = some rest := lit1_cons ']' rest
  simp only [matchCmdSpecialAt, h1, h2, h3, h4, h5, h6, h7, h8, h9, h10, h11]

theorem epSpecial_hit (rest : List Char) :
    matchEpSpecialAt (epLitStr.data ++ rest) = some serverPath := by
  have h1 : litCI (("entrypoint").data) (epLitStr.data ++ rest)
      = some ((" [\"/usr/local/bin/server\"]").data ++ rest) :=
    litCI_append (("entrypoint").data) (("ENTRYPOINT").data)
      ((" [\"/usr/local/bin/server\"]").data ++ rest) (by decide)
  have h2 : sp1 ((" [\"/usr/local/bin/server\"]").data ++ rest)
      = some (("[\"/usr/local/bin/server\"]").data ++ rest) :=
    sp1_concrete ([' ']) '[' (("\"/usr/local/bin/server\"]").data ++ rest)
      (by decide) (by decide) (by decide)
  have h3 : lit1 '[' (("[\"/usr/local/bin/server\"]").data ++ rest)
      = some (("\"/usr/local/bin/server\"]").data ++ rest) :=
    lit1_cons '[' (("\"/usr/local/bin/server\"]").data ++ rest)
  have h4 : sp0 (("\"/usr/local/bin/server\"]").data ++ rest)
      = ("\"/usr/local/bin/server\"]").data ++ rest :=
    sp0_id '"' (("/usr/local/bin/server\"]").data ++ rest) (by decide)
  have h5 : lit1 '"' (("\"/usr/local/bin/server\"]").data ++ rest)
      = some (("/usr/local/bin/server\"]").data ++ rest) :=
    lit1_cons '"' (("/usr/local/bin/server\"]").data ++ rest)
  have h6 : litCIKeep serverPath (("/usr/local/bin/server\"]").data ++ rest)
      = some (("/usr/local/bin/server").data, ("\"]").data ++ rest) :=
    litCIKeep_append serverPath (("/usr/local/bin/server").data)
      (("\"]").data ++ rest) (by decide)
  have h7 : lit1 '"' (("\"]").data ++ rest) = some (("]").data ++ rest) :=
    lit1_cons '"' (("]").data ++ rest)
  have h8 : sp0 (("]").data ++ rest) = ("]").data ++ rest :=
    sp0_id ']' rest (by decide)
  have h9 : lit1 ']' (("]").data ++ rest) = some rest := lit1_cons ']' rest
  simp only [matchEpSpecialAt, h1, h2, h3, h4, h5, h6, h7, h8, h9]
  rfl

theorem parse_ok_fields (st : ParserState) (text : String) (r : ParserState)
    (h : parse st text = Except.ok r) :
    r.cmd = cmdStep text.data
      (entrypointStep text.data (normalizeContent text.data) st.entrypoint).2 st.cmd ∧
    r.entrypoint = (entrypointStep text.data (normalizeContent text.data) st.entrypoint).1 ∧
    r.exposed_ports
      = st.exposed_ports
        ++ (allMatches matchExposeAt (normalizeContent text.data)).map String.mk ∧
    r.volumes
      = st.volumes
        ++ ((allMatches matchVolumeAt (normalizeContent text.data)).map volumePieces).flatten := by
  simp only [parse] at h
  cases hstep : hcStep (normalizeContent text.data) st.healthcheck st.healthcheck_options with
  | error e =>
    rw [hstep] at h
    exact absurd h (by simp)
  | ok hc =>
    rw [hstep] at h
    simp only [Except.ok.injEq] at h
    subst h
    exact ⟨rfl, rfl, rfl, rfl⟩

theorem cmdStep_special (orig content : List Char) (cmd0 : Option StrOrList)
    (h : firstMatch matchCmdSpecialAt orig = some ()) :
    cmdStep orig content cmd0
      = some (StrOrList.list [("--config"), ("/etc/app/config.yaml"), ("--verbose")]) := by
  unfold cmdStep
  rw [h]

theorem entrypointStep_special (orig content : List Char) (ep0 : Option StrOrList)
    (path : List Char) (h : firstMatch matchEpSpecialAt orig = some path) :
    (entrypointStep orig content ep0).1 = some (StrOrList.list [String.mk path]) := by
  unfold entrypointStep
  rw [h]

/-- First value stored under a key in the ordered environment mapping. -/
def lookupStr (k : String) : List (String × String) → Option String
  | [] => none
  | (k', v) :: rest => if k' = k then some v else lookupStr k rest

theorem getVal_skip_cons (k k0 : String) (v : Val) (l2 : List (String × Val))
    (hne : k0 ≠ k) : getVal k ((k0, v) :: l2) = getVal k l2 := by
  simp [getVal, hne]

theorem getVal_skip_ite (k k0 : String) (b : Bool) (v : Val) (l2 : List (String × Val))
    (hne : k0 ≠ k) : getVal k ((if b then [(k0, v)] else []) ++ l2) = getVal k l2 := by
  cases b
  · simp
  · simp [getVal, hne]

theorem getVal_skip_false (k k0 : String) (b : Bool) (v : Val) (l2 : List (String × Val))
    (hb : b = false) : getVal k ((if b then [(k0, v)] else []) ++ l2) = getVal k l2 := by
  subst hb
  simp

/-- No chunk of the assembled record ever carries the user key: the source
never emits one. -/
theorem serviceConfig_no_user (sn dn : String) (st : ParserState) :
    getVal ("user") (serviceConfig sn dn st) = none := by
  simp only [serviceConfig, List.flatten_cons, List.flatten_nil, List.singleton_append]
  rw [getVal_skip_cons _ _ _ _ (by decide)]
  rw [getVal_skip_ite _ _ _ _ _ (by decide)]
  rw [getVal_skip_ite _ _ _ _ _ (by decide)]
  rw [getVal_skip_ite _ _ _ _ _ (by decide)]
  rw [getVal_skip_ite _ _ _ _ _ (by decide)]
  rw [getVal_skip_ite _ _ _ _ _ (by decide)]
  rw [getVal_skip_ite _ _ _ _ _ (by decide)]
  rw [getVal_skip_ite _ _ _ _ _ (by decide)]
  rw [getVal_skip_ite _ _ _ _ _ (by decide)]
  rfl

theorem envUpd_keys (k v : String) (env : List (String × String)) :
    (env.map (fun p => if p.1 == k then (k, v) else p)).map Prod.fst
      = env.map Prod.fst := by
  induction env with
  | nil => rfl
  | cons a rest ih =>
    simp only [List.map_cons, ih]
    by_cases hk : (a.1 == k) = true
    · have ha : a.1 = k := by simpa using hk
      rw [if_pos hk]
      simp [ha]
    · rw [if_neg hk]

theorem envUpd_lookup (k v : String) (env : List (String × String))
    (h : env.any (fun p => p.1 == k) = true) :
    lookupStr k (env.map (fun p => if p.1 == k then (k, v) else p)) = some v := by
  induction env with
  | nil => simp at h
  | cons a rest ih =>
    simp only [List.any_cons, Bool.or_eq_true] at h
    by_cases hk : (a.1 == k) = true
    · rw [List.map_cons, if_pos hk]
      simp [lookupStr]
    · rw [List.map_cons, if_neg hk]
      have hne : a.1 ≠ k := by simpa using hk
      rcases h with h1 | h2
      · exact absurd h1 hk
      · simp only [lookupStr, if_neg hne]
        exact ih h2

theorem envInsert_keys (env : List (String × String)) (k v : String)
    (h : env.any (fun p => p.1 == k) = true) :
    (envInsert env k v).map Prod.fst = env.map Prod.fst := by
  unfold envInsert
  rw [if_pos h]
  exact envUpd_keys k v env

theorem envInsert_lookup (env : List (String × String)) (k v : String)
    (h : env.any (fun p => p.1 == k) = true) :
    lookupStr k (envInsert env k v) = some v := by
  unfold envInsert
  rw [if_pos h]
  exact envUpd_lookup k v env h

/-- Claim C1 counterexample: on an input whose HEALTHCHECK has no explicit
option flags and the clause CMD curl, the assembled record has NO
healthcheck entry at all (the pattern requires at least one option flag),
contradicting the claimed record with defaults including a start period. -/
theorem C1_counterexample :
    (parse initState ("HEALTHCHECK CMD curl -f http://localhost/")).map
        (fun st => getVal ("healthcheck") (serviceConfig ("app") ("Dockerfile") st))
      = Except.ok none
    ∧ (none : Option Val)
        ≠ some (Val.m
            [(("test"), Val.l [("CMD"), ("curl"), ("-f"), ("http://localhost/")]),
             (("interval"), Val.s ("30s")),
             (("timeout"), Val.s ("10s")),
             (("retries"), Val.i 3),
             (("start_period"), Val.s ("0s"))]) :=
  ⟨rfl, fun hcontr => by cases hcontr⟩

/-- Claim C1 amended: a HEALTHCHECK with at least one option flag is
recognized; its shell-form command yields the test CMD-SHELL followed by
the whole command string, unspecified interval, timeout and retries fall
back to 30s, 10s and 3, and an unspecified start period is omitted
entirely rather than defaulted to 0s. -/
theorem C1_theorem :
    (parse initState ("HEALTHCHECK --interval=30s CMD curl -f http://localhost/")).map
        (fun st => getVal ("healthcheck") (serviceConfig ("app") ("Dockerfile") st))
      = Except.ok (some (Val.m
          [(("test"), Val.l [("CMD-SHELL"), ("curl -f http://localhost/")]),
           (("interval"), Val.s ("30s")),
           (("timeout"), Val.s ("10s")),
           (("retries"), Val.i 3)])) := by
  rfl

/-- Claim C2 counterexample: EXPOSE 53/udp contributes the mapping 53:53,
not 53:53/udp — the protocol is consumed by the pattern but discarded, and
the claimed udp-suffixed mapping never appears. -/
theorem C2_counterexample :
    (parse initState ("EXPOSE 53/udp")).map
        (fun st => getVal ("ports") (serviceConfig ("app") ("Dockerfile") st))
      = Except.ok (some (Val.l [("53:53")]))
    ∧ ¬ (("53:53/udp") ∈ ([("53:53")] : List String)) :=
  ⟨rfl, by decide⟩

/-- Claim C2 amended: every EXPOSE match contributes the mapping
port:port with the protocol dropped even for udp, only the first port of a
line with several ports is captured, and matches accumulate in encounter
order without deduplication. -/
theorem C2_theorem :
    (parse initState ("EXPOSE 8080\nEXPOSE 53/udp\nEXPOSE 9090 9091\nEXPOSE 8080")).map
        (fun st => getVal ("ports") (serviceConfig ("app") ("Dockerfile") st))
      = Except.ok (some (Val.l [("8080:8080"), ("53:53"), ("9090:9090"), ("8080:8080")])) := by
  rfl

/-- Claim C3 counterexample: a USER directive is never extracted (the
record has no user key), and with two WORKDIR directives the FIRST match
wins, not the last as claimed. -/
theorem C3_counterexample :
    (parse initState ("USER alice\nWORKDIR /a\nWORKDIR /b")).map
        (fun st => (getVal ("user") (serviceConfig ("app") ("Dockerfile") st),
                    getVal ("working_dir") (serviceConfig ("app") ("Dockerfile") st)))
      = Except.ok (none, some (Val.s ("/a")))
    ∧ (("/a") : String) ≠ ("/b") :=
  ⟨rfl, by decide⟩

/-- Claim C3 amended: no assembled record ever contains a user key (USER
extraction does not exist in the engine), and the WORKDIR value is taken
from the first matching occurrence, populating the working dir key. -/
theorem C3_theorem :
    (∀ (sn dn : String) (st : ParserState),
        getVal ("user") (serviceConfig sn dn st) = none)
    ∧ (parse initState ("WORKDIR /first\nWORKDIR /second")).map
        (fun st => (st.working_dir,
                    getVal ("working_dir") (serviceConfig ("app") ("Dockerfile") st)))
      = Except.ok (some ("/first"), some (Val.s ("/first"))) :=
  ⟨serviceConfig_no_user, rfl⟩

/-- Claim C3 witness: the general part applied at concrete arguments. -/
theorem C3_witness :
    getVal ("user") (serviceConfig ("app") ("Dockerfile") initState) = none :=
  C3_theorem.1 ("app") ("Dockerfile") initState

/-- Claim C4 counterexample: with two standalone ENTRYPOINT instructions
the extracted value comes from the FIRST occurrence, not the last. -/
theorem C4_counterexample :
    (parse initState ("ENTRYPOINT first\nENTRYPOINT second")).map (fun st => st.entrypoint)
      = Except.ok (some (StrOrList.str ("first")))
    ∧ some (StrOrList.str ("first")) ≠ some (StrOrList.str ("second")) :=
  ⟨rfl, by decide⟩

/-- Claim C4 amended: the entrypoint comes from the FIRST matching
ENTRYPOINT occurrence, while the standalone command does come from the
LAST CMD occurrence that is not adjacent to a HEALTHCHECK line. -/
theorem C4_theorem :
    (parse initState ("ENTRYPOINT one\nENTRYPOINT two")).map (fun st => st.entrypoint)
      = Except.ok (some (StrOrList.str ("one")))
    ∧ (parse initState ("CMD one\nCMD two")).map (fun st => st.cmd)
      = Except.ok (some (StrOrList.str ("two"))) :=
  ⟨rfl, rfl⟩

/-- Claim C5 counterexample: a healthcheck option with a non-integer
retries value makes the whole parse call raise (the integer conversion is
unguarded), so parsing is NOT exception free on malformed option values. -/
theorem C5_counterexample :
    (parse initState ("HEALTHCHECK --retries=abc CMD x")).toOption = none := by
  rfl

/-- Claim C5 amended: malformed bracket syntax is recovered locally — an
unbalanced VOLUME quote still yields a best-effort path and a
non-evaluable ENTRYPOINT bracket falls back to token scanning — but a
non-integer retries value aborts the whole parse, and a failed ENTRYPOINT
bracket evaluation makes the later standalone CMD extraction scan the
inner bracket text instead of the remaining file, losing the CMD line. -/
theorem C5_theorem :
    (parse initState ("VOLUME [\"/da")).map (fun st => st.volumes)
      = Except.ok [("/da")]
    ∧ (parse initState ("ENTRYPOINT [foo]\nCMD run.sh")).map
        (fun st => (st.entrypoint, st.cmd))
      = Except.ok (some (StrOrList.list [("foo")]), none) :=
  ⟨rfl, rfl⟩

/-- Claim C6 counterexample: a CMD line immediately following a
HEALTHCHECK line DOES populate the command field when it is the hardcoded
special-case literal, which bypasses the adjacency check entirely. -/
theorem C6_counterexample :
    (parse initState
        ("HEALTHCHECK --interval=5s CMD probe\nCMD [\"--config\", \"/etc/app/config.yaml\", \"--verbose\"]")).map
        (fun st => st.cmd)
      = Except.ok (some (StrOrList.list [("--config"), ("/etc/app/config.yaml"), ("--verbose")]))
    ∧ some (StrOrList.list [("--config"), ("/etc/app/config.yaml"), ("--verbose")])
        ≠ (none : Option StrOrList) :=
  ⟨rfl, by decide⟩

/-- Claim C6 amended: outside the hardcoded special case, a CMD line
immediately following a HEALTHCHECK line is excluded from standalone
command extraction: it populates nothing when it is the only CMD, and an
earlier standalone CMD stays in effect when the adjacent one is skipped. -/
theorem C6_theorem :
    (parse initState ("HEALTHCHECK --interval=5s CMD probe\nCMD run.sh")).map
        (fun st => (st.cmd, getVal ("command") (serviceConfig ("app") ("Dockerfile") st)))
      = Except.ok (none, none)
    ∧ (parse initState ("CMD first\nHEALTHCHECK --interval=5s CMD probe\nCMD [\"x\"]")).map
        (fun st => st.cmd)
      = Except.ok (some (StrOrList.str ("first"))) :=
  ⟨rfl, rfl⟩

/-- Claim C7: an unset or empty field is omitted entirely from the
assembled record — for each directive field, when it is unset the record
lacks the corresponding key — the fresh state yields a record with only
the build key, and a parse of an input with zero recognized directives
assembles exactly that build-only record. -/
theorem C7_theorem :
    ∀ (sn dn : String) (st : ParserState),
      (st.from_image = none → getVal ("image") (serviceConfig sn dn st) = none)
      ∧ (st.exposed_ports = [] → getVal ("ports") (serviceConfig sn dn st) = none)
      ∧ (st.volumes = [] → getVal ("volumes") (serviceConfig sn dn st) = none)
      ∧ (st.environment = [] → getVal ("environment") (serviceConfig sn dn st) = none)
      ∧ (st.working_dir = none → getVal ("working_dir") (serviceConfig sn dn st) = none)
      ∧ (st.healthcheck = none → getVal ("healthcheck") (serviceConfig sn dn st) = none)
      ∧ (st.entrypoint = none → getVal ("entrypoint") (serviceConfig sn dn st) = none)
      ∧ (st.cmd = none → getVal ("command") (serviceConfig sn dn st) = none)
      ∧ serviceConfig sn dn initState
          = [(("build"), Val.m [(("context"), Val.s (".")), (("dockerfile"), Val.s dn)])]
      ∧ (parse initState ("RUN make\nCOPY . .")).map (fun r => serviceConfig sn dn r)
          = Except.ok
              [(("build"), Val.m [(("context"), Val.s (".")), (("dockerfile"), Val.s dn)])] := by
  intro sn dn st
  refine ⟨?_, ?_, ?_, ?_, ?_, ?_, ?_, ?_, rfl, rfl⟩
  · intro h
    simp only [serviceConfig, List.flatten_cons, List.flatten_nil, List.singleton_append]
    rw [getVal_skip_cons _ _ _ _ (by decide)]
    rw [getVal_skip_false _ _ _ _ _ (by rw [h]; rfl)]
    rw [getVal_skip_ite _ _ _ _ _ (by decide)]
    rw [getVal_skip_ite _ _ _ _ _ (by decide)]
    rw [getVal_skip_ite _ _ _ _ _ (by decide)]
    rw [getVal_skip_ite _ _ _ _ _ (by decide)]
    rw [getVal_skip_ite _ _ _ _ _ (by decide)]
    rw [getVal_skip_ite _ _ _ _ _ (by decide)]
    rw [getVal_skip_ite _ _ _ _ _ (by decide)]
    rfl
  · intro h
    simp only [serviceConfig, List.flatten_cons, List.flatten_nil, List.singleton_append]
    rw [getVal_skip_cons _ _ _ _ (by decide)]
    rw [getVal_skip_ite _ _ _ _ _ (by decide)]
    rw [getVal_skip_false _ _ _ _ _ (by rw [h]; rfl)]
    rw [getVal_skip_ite _ _ _ _ _ (by decide)]
    rw [getVal_skip_ite _ _ _ _ _ (by decide)]
    rw [getVal_skip_ite _ _ _ _ _ (by decide)]
    rw [getVal_skip_ite _ _ _ _ _ (by decide)]
    rw [getVal_skip_ite _ _ _ _ _ (by decide)]
    rw [getVal_skip_ite _ _ _ _ _ (by decide)]
    rfl
  · intro h
    simp only [serviceConfig, List.flatten_cons, List.flatten_nil, List.singleton_append]
    rw [getVal_skip_cons _ _ _ _ (by decide)]
    rw [getVal_skip_ite _ _ _ _ _ (by decide)]
    rw [getVal_skip_ite _ _ _ _ _ (by decide)]
    rw [getVal_skip_false _ _ _ _ _ (by rw [h]; rfl)]
    rw [getVal_skip_ite _ _ _ _ _ (by decide)]
    rw [getVal_skip_ite _ _ _ _ _ (by decide)]
    rw [getVal_skip_ite _ _ _ _ _ (by decide)]
    rw [getVal_skip_ite _ _ _ _ _ (by decide)]
    rw [getVal_skip_ite _ _ _ _ _ (by decide)]
    rfl
  · intro h
    simp only [serviceConfig, List.flatten_cons, List.flatten_nil, List.singleton_append]
    rw [getVal_skip_cons _ _ _ _ (by decide)]
    rw [getVal_skip_ite _ _ _ _ _ (by decide)]
    rw [getVal_skip_ite _ _ _ _ _ (by decide)]
    rw [getVal_skip_ite _ _ _ _ _ (by decide)]
    rw [getVal_skip_false _ _ _ _ _ (by rw [h]; rfl)]
    rw [getVal_skip_ite _ _ _ _ _ (by decide)]
    rw [getVal_skip_ite _ _ _ _ _ (by decide)]
    rw [getVal_skip_ite _ _ _ _ _ (by decide)]
    rw [getVal_skip_ite _ _ _ _ _ (by decide)]
    rfl
  · intro h
    simp only [serviceConfig, List.flatten_cons, List.flatten_nil, List.singleton_append]
    rw [getVal_skip_cons _ _ _ _ (by decide)]
    rw [getVal_skip_ite _ _ _ _ _ (by decide)]
    rw [getVal_skip_ite _ _ _ _ _ (by decide)]
    rw [getVal_skip_ite _ _ _ _ _ (by decide)]
    rw [getVal_skip_ite _ _ _ _ _ (by decide)]
    rw [getVal_skip_false _ _ _ _ _ (by rw [h]; rfl)]
    rw [getVal_skip_ite _ _ _ _ _ (by decide)]
    rw [getVal_skip_ite _ _ _ _ _ (by decide)]
    rw [getVal_skip_ite _ _ _ _ _ (by decide)]
    rfl
  · intro h
    simp only [serviceConfig, List.flatten_cons, List.flatten_nil, List.singleton_append]
    rw [getVal_skip_cons _ _ _ _ (by decide)]
    rw [getVal_skip_ite _ _ _ _ _ (by decide)]
    rw [getVal_skip_ite _ _ _ _ _ (by decide)]
    rw [getVal_skip_ite _ _ _ _ _ (by decide)]
    rw [getVal_skip_ite _ _ _ _ _ (by decide)]
    rw [getVal_skip_ite _ _ _ _ _ (by decide)]
    rw [getVal_skip_false _ _ _ _ _ (by rw [h]; rfl)]
    rw [getVal_skip_ite _ _ _ _ _ (by decide)]
    rw [getVal_skip_ite _ _ _ _ _ (by decide)]
    rfl
  · intro h
    simp only [serviceConfig, List.flatten_cons, List.flatten_nil, List.singleton_append]
    rw [getVal_skip_cons _ _ _ _ (by decide)]
    rw [getVal_skip_ite _ _ _ _ _ (by decide)]
    rw [getVal_skip_ite _ _ _ _ _ (by decide)]
    rw [getVal_skip_ite _ _ _ _ _ (by decide)]
    rw [getVal_skip_ite _ _ _ _ _ (by decide)]
    rw [getVal_skip_ite _ _ _ _ _ (by decide)]
    rw [getVal_skip_ite _ _ _ _ _ (by decide)]
    rw [getVal_skip_false _ _ _ _ _ (by rw [h]; rfl)]
    rw [getVal_skip_ite _ _ _ _ _ (by decide)]
    rfl
  · intro h
    simp only [serviceConfig, List.flatten_cons, List.flatten_nil, List.singleton_append]
    rw [getVal_skip_cons _ _ _ _ (by decide)]
    rw [getVal_skip_ite _ _ _ _ _ (by decide)]
    rw [getVal_skip_ite _ _ _ _ _ (by decide)]
    rw [getVal_skip_ite _ _ _ _ _ (by decide)]
    rw [getVal_skip_ite _ _ _ _ _ (by decide)]
    rw [getVal_skip_ite _ _ _ _ _ (by decide)]
    rw [getVal_skip_ite _ _ _ _ _ (by decide)]
    rw [getVal_skip_ite _ _ _ _ _ (by decide)]
    rw [getVal_skip_false _ _ _ _ _ (by rw [h]; rfl)]
    rfl

/-- Claim C7 witness: the image implication applied at concrete inputs. -/
theorem C7_witness :
    getVal ("image") (serviceConfig ("app") ("Dockerfile") initState) = none :=
  (C7_theorem ("app") ("Dockerfile") initState).1 rfl

/-- Claim C8 counterexample: an intervening valueless ENV directive makes
the ENV pattern span the line break and swallow the following ENV keyword,
so the later FOO assignment is never matched and FOO keeps the earlier
value bar instead of the claimed baz. -/
theorem C8_counterexample :
    (parse initState ("ENV FOO=bar\nENV B\nENV FOO=baz")).map (fun st => st.environment)
      = Except.ok [(("FOO"), ("bar")), (("B"), ("ENV"))]
    ∧ lookupStr ("FOO") [(("FOO"), ("bar")), (("B"), ("ENV"))] ≠ some ("baz") :=
  ⟨rfl, by decide⟩

/-- Claim C8 amended: assignment into the ordered mapping always
overwrites an existing key in place, keeping the key sequence and hence
the first-seen position; and when both FOO assignments are themselves
matched by the extractor, the environment holds exactly one FOO entry
with the later value at the first-seen position. -/
theorem C8_theorem :
    (∀ (env : List (String × String)) (k v : String),
        env.any (fun p => p.1 == k) = true →
        (envInsert env k v).map Prod.fst = env.map Prod.fst
          ∧ lookupStr k (envInsert env k v) = some v)
    ∧ (parse initState ("ENV FOO=bar\nENV BAR=x\nENV FOO=baz")).map (fun st => st.environment)
        = Except.ok [(("FOO"), ("baz")), (("BAR"), ("x"))] :=
  ⟨fun env k v h => ⟨envInsert_keys env k v h, envInsert_lookup env k v h⟩, rfl⟩

/-- Claim C8 witness: the general part applied at a concrete mapping. -/
theorem C8_witness :
    (envInsert [(("FOO"), ("bar"))] ("FOO") ("baz")).map Prod.fst
        = [(("FOO"), ("bar"))].map Prod.fst
      ∧ lookupStr ("FOO") (envInsert [(("FOO"), ("bar"))] ("FOO") ("baz")) = some ("baz") :=
  C8_theorem.1 [(("FOO"), ("bar"))] ("FOO") ("baz") (by decide)

/-- Claim C9 counterexample: a second parse call over the same accumulator
duplicates the list entries — after parsing the same EXPOSE text twice the
ports list holds the port twice, so re-parsing is NOT idempotent. -/
theorem C9_counterexample :
    (parse initState ("EXPOSE 80")).bind
        (fun s1 => (parse s1 ("EXPOSE 80")).map
          (fun s2 => (s1.exposed_ports, s2.exposed_ports)))
      = Except.ok ([("80")], [("80"), ("80")])
    ∧ ([("80"), ("80")] : List String) ≠ [("80")] :=
  ⟨rfl, by decide⟩

/-- Claim C9 amended: parsing is a pure function of the accumulator and
the text, so a fresh-state re-parse is reproducible, but a successful
parse over an arbitrary accumulator extends its ports and volumes lists by
exactly the lists a fresh parse of the same text produces — repeated parse
calls over the same accumulator therefore duplicate list entries. -/
theorem C9_theorem :
    ∀ (st : ParserState) (text : String) (r r0 : ParserState),
      parse st text = Except.ok r → parse initState text = Except.ok r0 →
      r.exposed_ports = st.exposed_ports ++ r0.exposed_ports
        ∧ r.volumes = st.volumes ++ r0.volumes := by
  intro st text r r0 h h0
  obtain ⟨-, -, he, hv⟩ := parse_ok_fields st text r h
  obtain ⟨-, -, he0, hv0⟩ := parse_ok_fields initState text r0 h0
  rw [he, he0, hv, hv0]
  exact ⟨rfl, rfl⟩

/-- Claim C9 witness: the amended statement applied to a concrete double
parse of the same EXPOSE text. -/
theorem C9_witness :
    ({ exposed_ports := [("80"), ("80")] } : ParserState).exposed_ports
        = ({ exposed_ports := [("80")] } : ParserState).exposed_ports
            ++ ({ exposed_ports := [("80")] } : ParserState).exposed_ports
      ∧ ({ exposed_ports := [("80"), ("80")] } : ParserState).volumes
        = ({ exposed_ports := [("80")] } : ParserState).volumes
            ++ ({ exposed_ports := [("80")] } : ParserState).volumes :=
  C9_theorem ({ exposed_ports := [("80")] }) ("EXPOSE 80")
    ({ exposed_ports := [("80"), ("80")] }) ({ exposed_ports := [("80")] }) rfl rfl

/-- Claim C10 counterexample: the ENTRYPOINT special-case search is
case-insensitive and first-match, so an earlier case-variant occurrence
wins even though the raw text also contains the exact lowercase literal;
the extracted entrypoint is the uppercase path, not the claimed list. -/
theorem C10_counterexample :
    (parse initState
        ("ENTRYPOINT [\"/USR/LOCAL/BIN/SERVER\"]\nENTRYPOINT [\"/usr/local/bin/server\"]")).map
        (fun st => st.entrypoint)
      = Except.ok (some (StrOrList.list [("/USR/LOCAL/BIN/SERVER")]))
    ∧ some (StrOrList.list [("/USR/LOCAL/BIN/SERVER")])
        ≠ some (StrOrList.list [("/usr/local/bin/server")]) :=
  ⟨rfl, by decide⟩

/-- Claim C10 amended: the two literal special cases take precedence over
the general rules — any successfully parsed raw input containing the exact
CMD special literal anywhere gets the fixed three-element command list
regardless of surrounding text, and any successfully parsed raw input
beginning with the exact ENTRYPOINT special literal gets the singleton
server path entrypoint regardless of the following text (an earlier
case-variant occurrence of the ENTRYPOINT pattern can change the captured
path, so an arbitrary prefix is excluded there). -/
theorem C10_theorem :
    (∀ (pre post : List Char) (st r : ParserState),
        parse st (String.mk (pre ++ (cmdLitStr.data ++ post))) = Except.ok r →
        r.cmd = some (StrOrList.list [("--config"), ("/etc/app/config.yaml"), ("--verbose")]))
    ∧ (∀ (post : List Char) (st r : ParserState),
        parse st (String.mk (epLitStr.data ++ post)) = Except.ok r →
        r.entrypoint = some (StrOrList.list [("/usr/local/bin/server")])) := by
  constructor
  · intro pre post st r h
    obtain ⟨hc, -, -, -⟩ := parse_ok_fields st _ r h
    rw [hc]
    apply cmdStep_special
    have hdata : (String.mk (pre ++ (cmdLitStr.data ++ post))).data
        = pre ++ (cmdLitStr.data ++ post) := rfl
    rw [hdata]
    refine firstMatch_unit_append _ pre _ (cmdSpecial_hit post) ?_
    intro hcontr
    exact absurd (List.append_eq_nil.mp hcontr).1 (by decide)
  · intro post st r h
    obtain ⟨-, hep, -, -⟩ := parse_ok_fields st _ r h
    rw [hep]
    have hfm : firstMatch matchEpSpecialAt ((String.mk (epLitStr.data ++ post)).data)
        = some serverPath := by
      have hdata : (String.mk (epLitStr.data ++ post)).data = epLitStr.data ++ post := rfl
      rw [hdata]
      refine firstMatch_here _ _ _ (epSpecial_hit post) ?_
      intro hcontr
      exact absurd (List.append_eq_nil.mp hcontr).1 (by decide)
    rw [entrypointStep_special _ _ _ _ hfm]
    rfl

/-- Claim C10 witness: the command half applied at empty prefix and
suffix over the fresh state. -/
theorem C10_witness :
    ({ cmd := some (StrOrList.list [("--config"), ("/etc/app/config.yaml"), ("--verbose")]) }
        : ParserState).cmd
      = some (StrOrList.list [("--config"), ("/etc/app/config.yaml"), ("--verbose")]) :=
  C10_theorem.1 [] [] initState
    ({ cmd := some (StrOrList.list [("--config"), ("/etc/app/config.yaml"), ("--verbose")]) })
    rfl
